import Mathlib

/-!
Shallow embedding of the ATLAS-Titan allocation-modeling queueing-system
simulator (package `qss`) and proofs about the spec claims.

Timestamps and priorities are Python floats in the source; they are modelled
as rationals (ℚ), which is exact for all inputs appearing here.  A Python
value that may be `None` is modelled as an `Option`.  Python truthiness
(`if x:` is false for `None`, `0`, `0.0` and the empty string) is modelled
explicitly by the `pyTruthy*` helpers below, because several code paths
depend on it.
-/

namespace QSim

/-- Node states, from `qss.core.constants.NodeState`. -/
inductive NodeState where
  | Idle : NodeState
  | Busy : NodeState
deriving DecidableEq

/-- Service (simulator) states, from `qss.core.constants.ServiceState`. -/
inductive ServiceState where
  | Arrival : ServiceState
  | Completion : ServiceState
  | Stop : ServiceState
deriving DecidableEq

/-- Queue disciplines, from `qss.core.constants.QueueDiscipline`. -/
inductive QueueDiscipline where
  | FIFO : QueueDiscipline
  | Priority : QueueDiscipline
deriving DecidableEq

/-- Python truthiness of an optional number: `None`, `0` and `0.0` are falsy. -/
def pyTruthy : Option ℚ → Bool
  | none => false
  | some x => decide (x ≠ 0)

/-- Python truthiness of an optional string: `None` and the empty string are falsy. -/
def pyTruthyStr : Option String → Bool
  | none => false
  | some s => decide (s ≠ "")

/-- Python 2 ordering of an optional number against an optional number:
`None` compares below every number. -/
def pyGT : Option ℚ → Option ℚ → Bool
  | none, _ => false
  | some _, none => true
  | some x, some y => decide (x > y)

/-- Job record, from `qss.core.job.Job`.  The fields `source`, `wall_time`
and the synthetic identity `jid` (standing for the Python `id(job)`) are the
attributes the rest of the package reads on a job (spec 3, Data model). -/
structure Job where
  execution_time : ℚ
  num_nodes : Nat
  wall_time : ℚ
  source : String
  arrival_timestamp : Option ℚ
  submission_timestamp : Option ℚ
  priority : ℚ
  jid : Nat
deriving DecidableEq

/-- `Job.release_timestamp`: the source guards with `if self.submission_timestamp:`,
so a submission timestamp of `None` or `0` yields `None`. -/
def Job.release_timestamp (j : Job) : Option ℚ :=
  if pyTruthy j.submission_timestamp then
    some (j.submission_timestamp.getD 0 + j.execution_time)
  else none

/-- `Job.delay`: guarded by `if self.arrival_timestamp and self.submission_timestamp:`;
on success it returns `wait_time + execution_time` with
`wait_time = submission_timestamp - arrival_timestamp` (the inner `wait_time`
property is defined under the same submission guard). -/
def Job.delay (j : Job) : Option ℚ :=
  if pyTruthy j.arrival_timestamp ∧ pyTruthy j.submission_timestamp then
    some ((j.submission_timestamp.getD 0 - j.arrival_timestamp.getD 0) + j.execution_time)
  else none

/-- `Job.increase_priority`. -/
def Job.increase_priority (j : Job) (value : ℚ) : Job :=
  { j with priority := j.priority + value }

/-- `QSS.__set_next_timestamp` from `qss/__init__.py`.  Inputs: the optional
`time_limit`, the minimum pending arrival timestamp `t_a`
(`self.__arrival_timestamp`), the earliest release timestamp `t_r`
(`self.__node_manager.next_release_timestamp`), and the current time and
state.  Returns the new `(current_time, state)`.  The branch conditions
mirror the Python truthiness tests and the chained comparison
`next_release_timestamp > self.__arrival_timestamp > 0.` exactly; in the
Arrival branch `t_a` is always present, so `getD` is never the fallback. -/
def set_next_timestamp (time_limit t_a t_r : Option ℚ) (current_time : ℚ)
    (state : ServiceState) : ℚ × ServiceState :=
  if ¬ pyTruthy t_a ∧ ¬ pyTruthy t_r then (current_time, ServiceState.Stop)
  else
    let p : ℚ × ServiceState :=
      if ¬ pyTruthy t_r ∨ (pyGT t_r t_a ∧ pyGT t_a (some 0)) then
        (t_a.getD current_time, ServiceState.Arrival)
      else if pyTruthy t_r then (t_r.getD current_time, ServiceState.Completion)
      else (current_time, state)
    if pyTruthy time_limit ∧ p.1 ≠ 0 ∧ time_limit.getD 0 < p.1 then
      (p.1, ServiceState.Stop)
    else p

/-- The spec case analysis for `choose_next_timestamp` (spec 4.1), written
from the spec words: both timestamps absent gives Stop; `t_r` missing or
`t_r > t_a` advances to `t_a` in state Arrival; otherwise advances to `t_r`
in state Completion; afterwards a set and exceeded `time_limit` overrides
the state to Stop. -/
def choose_next_timestamp_spec (time_limit t_a t_r : Option ℚ)
    (current_time : ℚ) : ℚ × ServiceState :=
  let override : ℚ × ServiceState → ℚ × ServiceState := fun p =>
    match time_limit with
    | some l => if l < p.1 then (p.1, ServiceState.Stop) else p
    | none => p
  match t_a, t_r with
  | none, none => (current_time, ServiceState.Stop)
  | some a, none => override (a, ServiceState.Arrival)
  | none, some r => override (r, ServiceState.Completion)
  | some a, some r =>
      if r > a then override (a, ServiceState.Arrival)
      else override (r, ServiceState.Completion)

/-! ### Association-list helpers

Python `dict`/`defaultdict(int)`/`defaultdict(list)` values are modelled as
association lists; counter values are `Int` (Python ints), with lookup
defaulting to the defaultdict default. -/

/-- Counter lookup with defaultdict-int default 0. -/
def alGetInt (d : List (String × Int)) (k : String) : Int :=
  (d.lookup k).getD 0

/-- Set (replace the first binding of) a counter key, appending when absent. -/
def alSetInt : List (String × Int) → String → Int → List (String × Int)
  | [], k, v => [(k, v)]
  | (k0, v0) :: rest, k, v =>
      if k0 = k then (k, v) :: rest else (k0, v0) :: alSetInt rest k v

/-- Delete the first binding of a key. -/
def alEraseInt : List (String × Int) → String → List (String × Int)
  | [], _ => []
  | (k0, v0) :: rest, k =>
      if k0 = k then rest else (k0, v0) :: alEraseInt rest k

/-- Job-list lookup with defaultdict-list default `[]`. -/
def alGetJobs (d : List (String × List Job)) (k : String) : List Job :=
  (d.lookup k).getD []

/-- Set (replace the first binding of) a job-list key, appending when absent. -/
def alSetJobs : List (String × List Job) → String → List Job → List (String × List Job)
  | [], k, v => [(k, v)]
  | (k0, v0) :: rest, k, v =>
      if k0 = k then (k, v) :: rest else (k0, v0) :: alSetJobs rest k v

/-- `__increase_num_jobs_per_source` (same code in `QueueManager` and
`NodeManager`): `self.__num_jobs_per_source[source] += 1` on a defaultdict. -/
def increaseSource (d : List (String × Int)) (source : String) : List (String × Int) :=
  alSetInt d source (alGetInt d source + 1)

/-- `__decrease_num_jobs_per_source`: decrement only when the key is present,
and delete the key when the decremented value is falsy (0). -/
def decreaseSource (d : List (String × Int)) (source : String) : List (String × Int) :=
  if (d.lookup source).isSome then
    let v := alGetInt d source - 1
    if v = 0 then alEraseInt d source else alSetInt d source v
  else d

/-! ### Queue manager (`qss/core/queue.py`) -/

/-- Mutable state of a `QueueManager`.  `buffer` is `some _` iff the manager
was built `with_buffer=True`; `num_dropped` is `some _` otherwise (the
constructor sets exactly one of the two). -/
structure QueueState where
  queue : List Job
  latest_queued_timestamp : ℚ
  num_jobs_per_source : List (String × Int)
  buffer : Option (List (String × List Job))
  num_dropped : Option (List (String × Int))
deriving DecidableEq

/-- Configuration of a `QueueManager` (policy, limits, discipline and the
`job_init` hook, modelled as a pure function on the job). -/
structure QueueConfig where
  limits : List (String × Int)
  discipline : QueueDiscipline
  job_init : Job → Job

/-- `priority_queue_append`: scan indexes from the back; insert the element
right after the last queued job whose priority is at least the new priority,
or at the front when no such job exists.  The auxiliary returns `none` when
no qualifying job exists. -/
def priorityAppendAux : List Job → Job → Option (List Job)
  | [], _ => none
  | x :: xs, e =>
      match priorityAppendAux xs e with
      | some r => some (x :: r)
      | none => if x.priority ≥ e.priority then some (x :: e :: xs) else none

/-- `priority_queue_append` on an immutable list. -/
def priority_queue_append (queue : List Job) (element : Job) : List Job :=
  (priorityAppendAux queue element).getD (element :: queue)

/-- `QueueManager.__process_approved_job`: under Priority, age every queued
job by `current_time - latest_queued_timestamp`; then run `job_init`, insert
in discipline order, bump the per-source counter and record the admission
time. -/
def process_approved_job (cfg : QueueConfig) (st : QueueState) (job : Job)
    (current_time : ℚ) : QueueState :=
  let q :=
    if cfg.discipline = QueueDiscipline.Priority then
      st.queue.map (fun e => e.increase_priority (current_time - st.latest_queued_timestamp))
    else st.queue
  let job := cfg.job_init job
  let q :=
    match cfg.discipline with
    | QueueDiscipline.FIFO => q ++ [job]
    | QueueDiscipline.Priority => priority_queue_append q job
  { st with
      queue := q
      num_jobs_per_source := increaseSource st.num_jobs_per_source job.source
      latest_queued_timestamp := current_time }

/-- `QueueManager.__process_rejected_job`: append to the buffer when the
buffer exists, otherwise bump the per-source and total drop counters. -/
def process_rejected_job (st : QueueState) (job : Job) : QueueState :=
  match st.buffer with
  | some b =>
      { st with buffer := some (alSetJobs b job.source (alGetJobs b job.source ++ [job])) }
  | none =>
      match st.num_dropped with
      | some d =>
          let d1 := alSetInt d job.source (alGetInt d job.source + 1)
          { st with num_dropped := some (alSetInt d1 "_total" (alGetInt d1 "_total" + 1)) }
      | none => st

/-- The per-source limit key resolution inside `QueueManager.add`:
the source name when it has a configured limit, else the `_per_source` key
when configured, else no key. -/
def source_limit_key (cfg : QueueConfig) (job : Job) : Option String :=
  if (cfg.limits.lookup job.source).isSome then some job.source
  else if (cfg.limits.lookup "_per_source").isSome then some "_per_source"
  else none

/-- `QueueManager.add`: returns the Python status code (0 success,
1 rejected) together with the new state. -/
def QueueManager.add (cfg : QueueConfig) (st : QueueState) (job : Job)
    (current_time : ℚ) : Nat × QueueState :=
  let p1 : Bool × Bool :=
    match cfg.limits.lookup "_total" with
    | some l => (true, decide (¬ (l - (st.queue.length : Int) < 1)))
    | none => (false, true)
  let with_limit := p1.1
  let has_free_spots := p1.2
  let key := source_limit_key cfg job
  let p2 : Bool × Bool :=
    if has_free_spots ∧ pyTruthyStr key then
      let l := alGetInt cfg.limits (key.getD "")
      (true, decide (¬ (l - alGetInt st.num_jobs_per_source job.source < 1)))
    else (with_limit, has_free_spots)
  if ¬ p2.1 ∨ p2.2 then (0, process_approved_job cfg st job current_time)
  else (1, process_rejected_job st job)

/-! ### Output statistics (`qss/__init__.py`) -/

/-- The slice of the output channel selected by `get_avg_delay`:
`self.__output if not source else filter(lambda x: x.source == source, ...)`. -/
def selectedJobs (output : List Job) (source : Option String) : List Job :=
  if pyTruthyStr source then output.filter (fun j => j.source = source.getD "")
  else output

/-- The left fold `reduce(lambda x, y: x + y.delay, jobs, 0.)`; adding a
`None` delay raises a TypeError in Python, modelled as `none`. -/
def sumDelaysFrom (acc : Option ℚ) : List Job → Option ℚ
  | [] => acc
  | j :: rest =>
      sumDelaysFrom
        (match acc, j.delay with
         | some a, some d => some (a + d)
         | _, _ => none) rest

/-- Sum of delays over a job list, starting from `0.`. -/
def sumDelays (jobs : List Job) : Option ℚ := sumDelaysFrom (some 0) jobs

/-- `QSS.get_avg_delay`: returns `0.` when the output channel is empty;
otherwise sums the delays of the selected slice and divides by its length.
A raised exception (TypeError on a `None` delay, ZeroDivisionError on an
empty slice) is modelled as `none`. -/
def get_avg_delay (output : List Job) (source : Option String) : Option ℚ :=
  if output = [] then some 0
  else
    let jobs := selectedJobs output source
    match sumDelays jobs with
    | none => none
    | some s => if jobs.length = 0 then none else some (s / jobs.length)

/-! ### Node manager (`qss/core/node.py`) -/

/-- Mutable state of a `NodeManager`: the node-state list, the allocation
list of `(job, node_ids)` pairs, and the per-source counters. -/
structure NodeManagerState where
  nodes : List NodeState
  jobs_allocation : List (Job × List Nat)
  num_jobs_per_source : List (String × Int)
deriving DecidableEq

/-- `NodeManager.next_release_timestamp`: the release timestamp of the head
allocation, or `None` with no allocations (the head release itself may be
`None` when its submission timestamp is falsy). -/
def next_release_timestamp (nm : NodeManagerState) : Option ℚ :=
  match nm.jobs_allocation with
  | [] => none
  | (j, _) :: _ => j.release_timestamp

/-- Set the listed node ids to Idle (`self.__nodes[node_id] = NodeState.Idle`).
All ids reaching this point index into the list. -/
def setIdleAll (nodes : List NodeState) (ids : List Nat) : List NodeState :=
  ids.foldl (fun ns i => ns.set i NodeState.Idle) nodes

/-- The loop of `NodeManager.stop_processing`: pop head allocations while the
head release timestamp equals the current time (a Python `float == None`
comparison is false, so a `None` head release stops the loop). -/
def stopGo : List (Job × List Nat) → List NodeState → List (String × Int) → ℚ →
    List Job × List (Job × List Nat) × List NodeState × List (String × Int)
  | [], nodes, src, _ => ([], [], nodes, src)
  | (j, ids) :: rest, nodes, src, ct =>
      if j.release_timestamp = some ct then
        let r := stopGo rest (setIdleAll nodes ids) (decreaseSource src j.source) ct
        (j :: r.1, r.2)
      else ([], (j, ids) :: rest, nodes, src)

/-- `NodeManager.stop_processing`: returns the finished jobs and the new
manager state. -/
def stop_processing (nm : NodeManagerState) (current_time : ℚ) :
    List Job × NodeManagerState :=
  let r := stopGo nm.jobs_allocation nm.nodes nm.num_jobs_per_source current_time
  (r.1, { nodes := r.2.2.1, jobs_allocation := r.2.1, num_jobs_per_source := r.2.2.2 })

/-- Python 2 `sort` key comparison on `release_timestamp` values:
`None` sorts below every number. -/
def releaseKeyLT : Option ℚ → Option ℚ → Bool
  | none, none => false
  | none, some _ => true
  | some _, none => false
  | some x, some y => decide (x < y)

/-- Stable insertion (after all keys not above the new key), used to model
the stable Python `list.sort(key=...)` on the allocation list. -/
def insertByRelease (x : Job × List Nat) :
    List (Job × List Nat) → List (Job × List Nat)
  | [] => [x]
  | y :: ys =>
      if releaseKeyLT x.1.release_timestamp y.1.release_timestamp then x :: y :: ys
      else y :: insertByRelease x ys

/-- Stable sort of the allocation list by `release_timestamp`
(`self.__jobs_allocation.sort(key=lambda x: x[0].release_timestamp)`). -/
def sortByRelease (l : List (Job × List Nat)) : List (Job × List Nat) :=
  l.foldl (fun acc x => insertByRelease x acc) []

/-- Python truthiness of an optional node id: `None` and `0` are falsy.
This is the exact test `if failed_node_id:` performs. -/
def pyTruthyNat : Option Nat → Bool
  | none => false
  | some n => decide (n ≠ 0)

/-- The marking loop of `NodeManager.assign_processing`: walk the requested
ids, mark Idle nodes Busy, and stop at the first Busy one (returned as the
failed id). -/
def assignLoop : List Nat → List NodeState → Option Nat × List NodeState
  | [], nodes => (none, nodes)
  | i :: rest, nodes =>
      if nodes.getD i NodeState.Idle = NodeState.Busy then (some i, nodes)
      else assignLoop rest (nodes.set i NodeState.Busy)

/-- `NodeManager.assign_processing`: returns an error message (the raised
exception) when one is raised, together with the state the manager is left
in; on success records the submission timestamp, appends the allocation and
re-sorts by release timestamp, and bumps the per-source counter. -/
def assign_processing (nm : NodeManagerState) (job : Job) (node_ids : List Nat)
    (current_time : ℚ) : Option String × NodeManagerState :=
  if node_ids.length ≠ job.num_nodes then
    (some "The number of requested nodes does not correspond to the number of provided nodes.", nm)
  else
    let r := assignLoop node_ids nm.nodes
    let failed := r.1
    let nodes1 := r.2
    if pyTruthyNat failed then
      let fid := failed.getD 0
      let reverted :=
        (node_ids.takeWhile (fun i => i ≠ fid)).foldl
          (fun ns i => ns.set i NodeState.Idle) nodes1
      (some "Already busy (assigned) node was requested again.",
        { nm with nodes := reverted })
    else
      let job1 := { job with submission_timestamp := some current_time }
      (none,
        { nodes := nodes1
          jobs_allocation := sortByRelease (nm.jobs_allocation ++ [(job1, node_ids)])
          num_jobs_per_source := increaseSource nm.num_jobs_per_source job.source })

/-! ### Node timetables and the backfill planner (`qss/core/schedule.py`) -/

/-- One timetable record `(start_timestamp, end_timestamp[, job_id])`
(records seeded by `set_initial_busy_time` may lack the job id). -/
structure TRecord where
  start_ts : ℚ
  end_ts : ℚ
  rec_jid : Option Nat
deriving DecidableEq

/-- The scan of `NodeSchedule.insert`: find the insertion position, raising
(`.error`) when the new start lies before the end of the record already
passed. -/
def insertScan : List TRecord → ℚ → ℚ → ℚ → Nat → Except String Nat
  | [], _, _, _, pos => Except.ok pos
  | r :: rest, s, e, prev, pos =>
      if prev ≤ s ∧ e ≤ r.start_ts then Except.ok pos
      else if prev > s then Except.error "New record cannot fit to the idle period."
      else insertScan rest s e r.end_ts (pos + 1)

/-- Insert an element at a position of a list (`list.insert(pos, x)`). -/
def listInsertAt (pos : Nat) (x : TRecord) : List TRecord → List TRecord
  | [] => [x]
  | y :: ys => match pos with
    | 0 => x :: y :: ys
    | pos + 1 => y :: listInsertAt pos x ys

/-- `NodeSchedule.insert start end job_id` on a timetable. -/
def NodeSchedule.insert (tt : List TRecord) (start_timestamp end_timestamp : ℚ)
    (job_id : Nat) : Except String (List TRecord) :=
  (insertScan tt start_timestamp end_timestamp 0 0).map
    (fun pos => listInsertAt pos ⟨start_timestamp, end_timestamp, some job_id⟩ tt)

/-- The disjoint-and-sorted timetable invariant: every record ends no later
than the next record starts. -/
def timetableOrdered : List TRecord → Bool
  | [] => true
  | [_] => true
  | a :: b :: rest => decide (a.end_ts ≤ b.start_ts) && timetableOrdered (b :: rest)

/-- The merging walk of `NodeSchedule.busy_times`. -/
def busyGo : ℚ × ℚ → List TRecord → List (ℚ × ℚ)
  | p, [] => [p]
  | (s, e), r :: rest =>
      if e = r.start_ts then busyGo (s, r.end_ts) rest
      else (s, e) :: busyGo (r.start_ts, r.end_ts) rest

/-- `NodeSchedule.busy_times`: the timetable with adjacent touching records
merged. -/
def busy_times : List TRecord → List (ℚ × ℚ)
  | [] => []
  | r :: rest => busyGo (r.start_ts, r.end_ts) rest

/-- The walk of `NodeSchedule.get_idle_times`; an idle period is `(a, some b)`
when bounded and `(a, none)` for the final open period. -/
def idleGo : ℚ → List (ℚ × ℚ) → List (ℚ × Option ℚ)
  | idleStart, [] => [(idleStart, none)]
  | idleStart, (s, e) :: rest =>
      if idleStart < s then (idleStart, some s) :: idleGo e rest
      else if e < idleStart then idleGo idleStart rest
      else idleGo e rest

/-- `NodeSchedule.get_idle_times`. -/
def get_idle_times (tt : List TRecord) (current_time : ℚ) : List (ℚ × Option ℚ) :=
  idleGo current_time (busy_times tt)

/-- `NodeSchedule.get_start_timestamps`: for every idle period long enough
for `wall_time`, a `(start, +1)` event and, when bounded, a
`(end - wall_time, -1)` event. -/
def get_start_timestamps (tt : List TRecord) (wall_time current_time : ℚ) :
    List (ℚ × Int) :=
  ((get_idle_times tt current_time).map (fun rec =>
    match rec.2 with
    | some b => if b - rec.1 < wall_time then [] else [(rec.1, 1), (b - wall_time, -1)]
    | none => [(rec.1, 1)])).flatten

/-- An event `(timestamp, sched_id, value)` of the earliest-start sweep in
`ScheduleManager.__get_schedule_parameters`. -/
structure SPEvent where
  ts : ℚ
  sid : Nat
  val : Int
deriving DecidableEq

/-- The ordered insertion of a schedule event into `next_timestamps`:
before the first event with a later timestamp, or with the same timestamp
and a larger schedule id. -/
def insertEvent : List SPEvent → SPEvent → List SPEvent
  | [], e => [e]
  | r :: rs, e =>
      if e.ts < r.ts ∨ (e.ts = r.ts ∧ e.sid < r.sid) then e :: r :: rs
      else r :: insertEvent rs e

/-- `next_timestamps.sort()`: lexicographic sort of the initial event list;
schedule ids are distinct, so `(ts, sid)` already decides the order.
Implemented as a stable insertion sort. -/
def sortEvents (l : List SPEvent) : List SPEvent :=
  l.foldl (fun acc e => insertEvent acc e) []

/-- The `while True` sweep of `__get_schedule_parameters`, with fuel bounding
the number of processed events; running out of events (a Python IndexError)
or out of fuel yields `none`.  Each step pops the minimum event, applies its
value to the eligible set and the remaining-node counter, and pulls the next
event of the same schedule into the queue. -/
def spLoop : Nat → List (List (ℚ × Int)) → List SPEvent → Int → List Nat →
    Option (ℚ × List Nat)
  | 0, _, _, _, _ => none
  | _ + 1, _, [], _, _ => none
  | fuel + 1, cums, e :: rest, num, sids =>
      let sids1 := if e.val > 0 then sids ++ [e.sid] else sids.erase e.sid
      let num1 := num - e.val
      if num1 = 0 then some (e.ts, sids1)
      else
        match cums.getD e.sid [] with
        | [] => spLoop fuel cums rest num1 sids1
        | (nt, nv) :: ctail =>
            spLoop fuel (cums.set e.sid ctail) (insertEvent rest ⟨nt, e.sid, nv⟩) num1 sids1

/-- `ScheduleManager.__get_schedule_parameters` for a job given as
`(wall_time, num_nodes)`: validation, per-schedule start-timestamp lists,
the initial event queue, and the sweep.  Every raised exception is modelled
as `none`. -/
def get_schedule_parameters (schedules : List (List TRecord)) (wall_time : ℚ)
    (num_nodes : Nat) (current_time : ℚ) : Option (ℚ × List Nat) :=
  if wall_time = 0 ∨ num_nodes = 0 then none
  else if num_nodes > schedules.length then none
  else
    let cums := schedules.map (fun tt => get_start_timestamps tt wall_time current_time)
    if cums.any List.isEmpty then none
    else
      let inits := (List.range cums.length).map (fun i =>
        let h := (cums.getD i []).headD (0, 0)
        (⟨h.1, i, h.2⟩ : SPEvent))
      let fuel := (cums.map List.length).sum + 1
      spLoop fuel (cums.map List.tail) (sortEvents inits) (num_nodes : Int) []

/-- Insert the reserved interval into every chosen schedule, propagating an
overlap error as `none`. -/
def insertAll (schedules : List (List TRecord)) (sids : List Nat)
    (start_timestamp end_timestamp : ℚ) (job_id : Nat) :
    Option (List (List TRecord)) :=
  sids.foldlM (fun sc sid =>
    match NodeSchedule.insert (sc.getD sid []) start_timestamp end_timestamp job_id with
    | Except.ok tt => some (sc.set sid tt)
    | Except.error _ => none) schedules

/-- Mutable state of a `ScheduleManager` (the parts `get_backfill_elements`
touches): per-node timetables, the idle-now counter, and the current time. -/
structure SMState where
  schedules : List (List TRecord)
  num_idle_nodes_now : Int
  current_time : ℚ
deriving DecidableEq

/-- The queue walk of `ScheduleManager.get_backfill_elements`. -/
def backfillGo : List Job → Nat → SMState → List (Nat × Nat) →
    Option (List (Nat × Nat) × SMState)
  | [], _, sm, out => some (out, sm)
  | job :: rest, eid, sm, out =>
      match get_schedule_parameters sm.schedules job.wall_time job.num_nodes
          sm.current_time with
      | none => none
      | some (t, sids) =>
          if t ≠ 0 then
            match insertAll sm.schedules sids t (t + job.wall_time) job.jid with
            | none => none
            | some scheds =>
                let found := t = sm.current_time
                let out1 := if found then out ++ [(eid, job.jid)] else out
                let idle1 := if found then sm.num_idle_nodes_now - sids.length
                             else sm.num_idle_nodes_now
                let sm1 : SMState :=
                  { sm with schedules := scheds, num_idle_nodes_now := idle1 }
                if sm1.num_idle_nodes_now = 0 then some (out1, sm1)
                else backfillGo rest (eid + 1) sm1 out1
          else
            if sm.num_idle_nodes_now = 0 then some (out, sm)
            else backfillGo rest (eid + 1) sm out

/-- `ScheduleManager.get_backfill_elements`: optionally update the current
time, then walk the queue while idle nodes remain, reserving each job whose
computed start timestamp is truthy (`if start_timestamp:`, falsy at 0) and
reporting the jobs whose start equals the current time.  The guard
`if t ≠ 0` is that Python truthiness test. -/
def get_backfill_elements (sm : SMState) (queue : List Job)
    (current_time : Option ℚ) : Option (List (Nat × Nat) × SMState) :=
  let sm := match current_time with
    | some t => { sm with current_time := t }
    | none => sm
  if sm.num_idle_nodes_now ≠ 0 then backfillGo queue 0 sm []
  else some ([], sm)

/-! ### Spec-side definitions used by amended claims, and concrete inputs -/

/-- The amended C5 rejection condition, following the spec words for the
admission rule: the total limit is configured and leaves no free spot, or a
per-source limit key resolves and that limit leaves no free spot for the
source. -/
def limits_leave_no_free_spot (cfg : QueueConfig) (st : QueueState) (job : Job) : Prop :=
  (∃ l, cfg.limits.lookup "_total" = some l ∧ l ≤ (st.queue.length : Int)) ∨
  (∃ k l, source_limit_key cfg job = some k ∧ cfg.limits.lookup k = some l ∧
    l ≤ alGetInt st.num_jobs_per_source job.source)

/-- A job submitted at time 0 (for C6): execution time 5. -/
def jobSubZero : Job := ⟨5, 1, 5, "A", some 1, some 0, 0, 1⟩

/-- A job submitted at time 2 (for the C6 witness): execution time 5. -/
def jobSubTwo : Job := ⟨5, 1, 5, "A", some 1, some 2, 0, 2⟩

/-- A 1-node job with wall time 5 (for C2 and C4): not yet submitted. -/
def jobOneNode : Job := ⟨5, 1, 5, "A", some 1, none, 0, 42⟩

/-- A completed job of source "a" (for C8): arrival 1, submission 3,
execution 2, so its delay is 4. -/
def jobDoneA : Job := ⟨2, 1, 2, "a", some 1, some 3, 0, 7⟩

/-- A queue configuration with a total limit of 1, FIFO (for C5). -/
def cfgTotalOne : QueueConfig := ⟨[("_total", 1)], QueueDiscipline.FIFO, id⟩

/-- A queue state holding one job, with the overflow buffer enabled (for C5). -/
def stWithBuffer : QueueState := ⟨[jobOneNode], 0, [("A", 1)], some [], none⟩

/-- A queue configuration with a total limit of 0, FIFO (for the C5 and C9
witnesses). -/
def cfgTotalZero : QueueConfig := ⟨[("_total", 0)], QueueDiscipline.FIFO, id⟩

/-- An empty queue state without a buffer (for the C9 witness). -/
def stNoBuffer : QueueState := ⟨[], 0, [], none, some [("_total", 0)]⟩

/-- An unlimited Priority queue configuration (for the C7 witness). -/
def cfgPriority : QueueConfig := ⟨[], QueueDiscipline.Priority, id⟩

/-- A queue state holding one queued job, last admission at time 2 (for the
C7 witness). -/
def stPriority : QueueState := ⟨[jobDoneA], 2, [("a", 1)], none, some [("_total", 0)]⟩

/-- A node manager with one busy node whose allocated job has no submission
timestamp, hence no release timestamp (for the C10 witness). -/
def nmNoRelease : NodeManagerState := ⟨[NodeState.Busy], [(jobOneNode, [0])], [("A", 1)]⟩

/-! ## Helper lemmas -/

/-- When the back-scan of `priority_queue_append` finds an insertion point,
the result is a permutation of consing the element. -/
theorem priorityAppendAux_perm (q : List Job) (e : Job) :
    ∀ r, priorityAppendAux q e = some r → r.Perm (e :: q) := by
  induction q with
  | nil => intro r h; simp [priorityAppendAux] at h
  | cons x xs ih =>
      intro r h
      simp only [priorityAppendAux] at h
      cases haux : priorityAppendAux xs e with
      | some r0 =>
          rw [haux] at h
          cases h
          exact (List.Perm.cons x (ih r0 haux)).trans (List.Perm.swap e x xs)
      | none =>
          rw [haux] at h
          by_cases hp : x.priority ≥ e.priority
          · rw [if_pos hp] at h
            cases h
            exact List.Perm.swap e x xs
          · rw [if_neg hp] at h
            cases h

/-- `priority_queue_append` inserts the new element without disturbing the
multiset of queued jobs. -/
theorem priority_queue_append_perm (q : List Job) (e : Job) :
    (priority_queue_append q e).Perm (e :: q) := by
  unfold priority_queue_append
  cases haux : priorityAppendAux q e with
  | some r => simpa using priorityAppendAux_perm q e r haux
  | none => simp

/-- The delay fold evaluates to the plain sum when every delay is defined. -/
theorem sumDelaysFrom_defined (l : List Job) :
    ∀ a : ℚ, (∀ j ∈ l, (j.delay).isSome) →
      sumDelaysFrom (some a) l = some (a + (l.map (fun j => (j.delay).getD 0)).sum) := by
  induction l with
  | nil => intro a _; simp [sumDelaysFrom]
  | cons j rest ih =>
      intro a h
      have hj : (j.delay).isSome := h j (List.mem_cons_self j rest)
      obtain ⟨d, hd⟩ := Option.isSome_iff_exists.mp hj
      have hr := ih (a + d) (fun x hx => h x (List.mem_cons_of_mem j hx))
      simp only [sumDelaysFrom, hd, hr, hd, List.map_cons, List.sum_cons, Option.getD_some]
      ring_nf

/-- A failed delay fold stays failed: the accumulator `none` (a raised
TypeError) propagates through the rest of the list. -/
theorem sumDelaysFrom_none (l : List Job) : sumDelaysFrom none l = none := by
  induction l with
  | nil => rfl
  | cons j rest ih => simpa [sumDelaysFrom] using ih

/-- The delay fold fails as soon as some delay in the list is undefined. -/
theorem sumDelaysFrom_undefined (l : List Job) :
    ∀ a : ℚ, (∃ j ∈ l, j.delay = none) → sumDelaysFrom (some a) l = none := by
  induction l with
  | nil => intro a h; simp at h
  | cons j rest ih =>
      intro a h
      by_cases hj : j.delay = none
      · simpa [sumDelaysFrom, hj] using sumDelaysFrom_none rest
      · obtain ⟨d, hd⟩ := Option.ne_none_iff_exists.mp hj
        rcases h with ⟨x, hx, hxd⟩
        rcases List.mem_cons.mp hx with hhead | htail
        · cases hhead
          exact absurd hxd hj
        · simpa [sumDelaysFrom, hd.symm] using ih (a + d) ⟨x, htail, hxd⟩

/-- The pop loop of `stop_processing` splits the allocation list at the first
allocation whose release timestamp differs from the current time. -/
theorem stopGo_split (t : ℚ) (alloc : List (Job × List Nat)) :
    ∀ nodes src,
      (stopGo alloc nodes src t).1 =
        (alloc.takeWhile (fun p => decide (p.1.release_timestamp = some t))).map Prod.fst ∧
      (stopGo alloc nodes src t).2.1 =
        alloc.dropWhile (fun p => decide (p.1.release_timestamp = some t)) := by
  induction alloc with
  | nil => intro nodes src; simp [stopGo]
  | cons p rest ih =>
      intro nodes src
      obtain ⟨j, ids⟩ := p
      by_cases h : j.release_timestamp = some t
      · have := ih (setIdleAll nodes ids) (decreaseSource src j.source)
        simp [stopGo, h, List.takeWhile, List.dropWhile, this.1, this.2]
      · simp [stopGo, h, List.takeWhile, List.dropWhile]

/-! ## Claim C6 (corrected) -/

/-- Claim C6, counterexample: a job whose submission timestamp is set to 0
has release timestamp `None`, not `submission + execution`: the property is
guarded by Python truthiness. -/
theorem release_timestamp_at_zero_cex :
    jobSubZero.submission_timestamp = some 0 ∧
    Job.release_timestamp jobSubZero ≠ some (0 + jobSubZero.execution_time) := by
  constructor
  · rfl
  · intro h
    simp [Job.release_timestamp, jobSubZero, pyTruthy] at h

/-- Claim C6, amended: for every job whose submission timestamp is set to a
nonzero value, the release timestamp equals submission plus execution time. -/
theorem release_timestamp_amended (j : Job) (t : ℚ)
    (h1 : j.submission_timestamp = some t) (h2 : t ≠ 0) :
    Job.release_timestamp j = some (t + j.execution_time) := by
  simp [Job.release_timestamp, pyTruthy, h1, h2]

/-- Witness for the amended C6 at a job submitted at time 2. -/
theorem release_timestamp_amended_witness :
    Job.release_timestamp jobSubTwo = some (2 + jobSubTwo.execution_time) :=
  release_timestamp_amended jobSubTwo 2 rfl (by norm_num)

/-! ## Claim C3 (code_bug) -/

/-- Claim C3, failing input: on the disjoint sorted timetable `[(5,10))`,
inserting `[7,15)` must fail with the overlap error (7 < 10), but the scan
only compares the new start with the end of records it has fully passed, so
at the tail the record is inserted without error and the resulting timetable
`[(5,10)), [7,15))` is no longer disjoint. -/
theorem node_schedule_insert_tail_overlap :
    timetableOrdered [⟨5, 10, some 1⟩] = true ∧
    NodeSchedule.insert [⟨5, 10, some 1⟩] 7 15 2 =
      Except.ok [⟨5, 10, some 1⟩, ⟨7, 15, some 2⟩] ∧
    timetableOrdered [⟨5, 10, some 1⟩, ⟨7, 15, some 2⟩] = false := by
  refine ⟨by decide, ?_, by decide⟩
  norm_num [NodeSchedule.insert, insertScan, listInsertAt, Except.map]

/-! ## Claim C4 (code_bug) -/

/-- Claim C4, failing input: `assign(job, [0], 3)` with node 0 Busy.  The
loop records `failed_node_id = 0`, but the guard `if failed_node_id:` is
falsy at 0, so instead of reverting and raising the capacity error the call
returns normally, sets the submission timestamp and appends an allocation on
the busy node 0. -/
theorem assign_processing_busy_node_zero :
    assign_processing ⟨[NodeState.Busy], [], []⟩ jobOneNode [0] 3 =
      (none, ⟨[NodeState.Busy],
        [({ jobOneNode with submission_timestamp := some 3 }, [0])], [("A", 1)]⟩) := by
  norm_num [assign_processing, jobOneNode, assignLoop, pyTruthyNat, sortByRelease,
    insertByRelease, increaseSource, alGetInt, alSetInt]

/-! ## Claim C2 (code_bug) -/

/-- Claim C2, failing input: one node with an empty timetable, current time
0, and a queued 1-node job of wall time 5.  The planner computes the correct
earliest start `t* = 0 = current_time` on node 0 (second conjunct), but
`get_backfill_elements` guards the reservation with `if start_timestamp:`,
which is falsy at 0, so nothing is inserted into any timetable and no job is
reported due for dispatch (first conjunct). -/
theorem backfill_skips_start_time_zero :
    get_schedule_parameters [[]] jobOneNode.wall_time jobOneNode.num_nodes 0 =
      some (0, [0]) ∧
    get_backfill_elements ⟨[[]], 1, 0⟩ [jobOneNode] none = some ([], ⟨[[]], 1, 0⟩) := by
  constructor
  · norm_num [get_schedule_parameters, jobOneNode, get_start_timestamps, get_idle_times,
      busy_times, idleGo, sortEvents, insertEvent, spLoop]
  · norm_num [get_backfill_elements, backfillGo, get_schedule_parameters, jobOneNode,
      get_start_timestamps, get_idle_times, busy_times, idleGo, sortEvents, insertEvent,
      spLoop]

/-! ## Claim C5 (corrected) -/

/-- Claim C5, counterexample: with the total limit 1 full and the overflow
buffer enabled, `add` diverts the job into the buffer yet still returns the
status code 1 (Rejected), where the claim demands the Admitted status 0. -/
theorem add_buffered_status_cex :
    (QueueManager.add cfgTotalOne stWithBuffer jobOneNode 5).1 = 1 ∧
    (QueueManager.add cfgTotalOne stWithBuffer jobOneNode 5).2.buffer =
      some [("A", [jobOneNode])] := by
  constructor
  · decide
  · decide

/-- Claim C5, amended: `add` returns the Rejected status (1) precisely when
the configured limits left no free spot, whether or not the job is then
diverted into the overflow buffer; it returns the Admitted status (0) in
every other case. -/
theorem add_rejected_iff_no_free_spot (cfg : QueueConfig) (st : QueueState)
    (job : Job) (now : ℚ) (hs : job.source ≠ "") :
    (QueueManager.add cfg st job now).1 = 1 ↔ limits_leave_no_free_spot cfg st job := by
  have hkey : ∀ k, source_limit_key cfg job = some k →
      (cfg.limits.lookup k).isSome ∧ k ≠ "" := by
    intro k hk
    unfold source_limit_key at hk
    by_cases h1 : (cfg.limits.lookup job.source).isSome
    · rw [if_pos h1] at hk
      cases hk
      exact ⟨h1, hs⟩
    · rw [if_neg h1] at hk
      by_cases h2 : (cfg.limits.lookup "_per_source").isSome
      · rw [if_pos h2] at hk
        cases hk
        exact ⟨h2, by decide⟩
      · rw [if_neg h2] at hk
        cases hk
  unfold QueueManager.add limits_leave_no_free_spot
  cases htot : cfg.limits.lookup "_total" with
  | some l =>
      by_cases hfull : l - (st.queue.length : Int) < 1
      · simp only [htot]
        simp [hfull, pyTruthyStr]
        omega
      · cases hk : source_limit_key cfg job with
        | none =>
            simp [htot, hfull, hk, pyTruthyStr]
            omega
        | some k =>
            obtain ⟨hks, hkne⟩ := hkey k hk
            obtain ⟨lk, hlk⟩ := Option.isSome_iff_exists.mp hks
            by_cases hsf : lk - alGetInt st.num_jobs_per_source job.source < 1
            all_goals unfold alGetInt at hsf
            · simp [htot, hfull, hk, pyTruthyStr, hkne, alGetInt, hlk, hsf]
              omega
            · simp [htot, hfull, hk, pyTruthyStr, hkne, alGetInt, hlk, hsf]
              omega
  | none =>
      cases hk : source_limit_key cfg job with
      | none =>
          simp [htot, hk, pyTruthyStr]
      | some k =>
          obtain ⟨hks, hkne⟩ := hkey k hk
          obtain ⟨lk, hlk⟩ := Option.isSome_iff_exists.mp hks
          by_cases hsf : lk - alGetInt st.num_jobs_per_source job.source < 1
          all_goals unfold alGetInt at hsf
          · simp [htot, hk, pyTruthyStr, hkne, alGetInt, hlk, hsf]
            omega
          · simp [htot, hk, pyTruthyStr, hkne, alGetInt, hlk, hsf]
            omega

/-- Witness for the amended C5: with the total limit 0 the add is rejected
and the no-free-spot condition holds. -/
theorem add_rejected_iff_no_free_spot_witness :
    (QueueManager.add cfgTotalZero stNoBuffer jobOneNode 5).1 = 1 ↔
      limits_leave_no_free_spot cfgTotalZero stNoBuffer jobOneNode :=
  add_rejected_iff_no_free_spot cfgTotalZero stNoBuffer jobOneNode 5 (by decide)

/-! ## Claim C8 (corrected) -/

/-- Claim C8, counterexample: the output channel holds one completed job of
source "a", and the average delay is requested for source "b".  The selected
slice is empty, so `reduce(...)/len(jobs)` divides by zero and the call
fails (modelled `none`) instead of returning 0 as the claim demands. -/
theorem get_avg_delay_empty_slice_cex :
    get_avg_delay [jobDoneA] (some "b") = none ∧
    get_avg_delay [jobDoneA] (some "b") ≠ some 0 := by
  constructor
  · decide
  · decide

/-- Claim C8, amended: `get_avg_delay` returns 0 when the output channel is
empty; fails with a division by zero (modelled `none`) when the output
channel is non-empty but the selected slice is empty; fails with a TypeError
(modelled `none`) when some selected job's delay is undefined — which is the
case exactly when that job's arrival or submission timestamp is falsy, e.g.
a job arriving or dispatched at time 0; and in the remaining case (non-empty
slice, all delays defined) returns the sum of the selected delays divided by
their count. -/
theorem get_avg_delay_amended (output : List Job) (source : Option String) :
    (output = [] → get_avg_delay output source = some 0) ∧
    (output ≠ [] → selectedJobs output source = [] →
      get_avg_delay output source = none) ∧
    (output ≠ [] → (∃ j ∈ selectedJobs output source, j.delay = none) →
      get_avg_delay output source = none) ∧
    (output ≠ [] → selectedJobs output source ≠ [] →
      (∀ j ∈ selectedJobs output source, (j.delay).isSome) →
      get_avg_delay output source =
        some (((selectedJobs output source).map (fun j => (j.delay).getD 0)).sum /
          (selectedJobs output source).length)) := by
  refine ⟨?_, ?_, ?_, ?_⟩
  · intro h
    simp [get_avg_delay, h]
  · intro h1 h2
    simp [get_avg_delay, h1, h2, sumDelays, sumDelaysFrom]
  · intro h1 hex
    have hsum := sumDelaysFrom_undefined (selectedJobs output source) 0 hex
    simp [get_avg_delay, h1, sumDelays, hsum]
  · intro h1 h2 hdef
    have hsum := sumDelaysFrom_defined (selectedJobs output source) 0 hdef
    simp only [get_avg_delay, if_neg h1, sumDelays, hsum, zero_add]
    rw [if_neg (by simpa [List.length_eq_zero] using h2)]

/-- Witness for the amended C8 on a singleton output slice with a defined
delay, exercising the sum-over-count case. -/
theorem get_avg_delay_amended_witness :
    get_avg_delay [jobDoneA] none =
      some (((selectedJobs [jobDoneA] none).map (fun j => (j.delay).getD 0)).sum /
        (selectedJobs [jobDoneA] none).length) :=
  (get_avg_delay_amended [jobDoneA] none).2.2.2 (by decide) (by decide) (by decide)

/-! ## Claim C10 (confirmed) -/

/-- Claim C10: `stop_processing t` returns the empty job list and leaves the
manager unchanged whenever `t` differs from `next_release_timestamp` (also
when the latter is absent), and in every case pops exactly the maximal
prefix of allocations whose release timestamp equals `t`. -/
theorem stop_processing_frame_and_pops (nm : NodeManagerState) (t : ℚ) :
    (next_release_timestamp nm ≠ some t → stop_processing nm t = ([], nm)) ∧
    (stop_processing nm t).1 =
      (nm.jobs_allocation.takeWhile
        (fun p => decide (p.1.release_timestamp = some t))).map Prod.fst ∧
    (stop_processing nm t).2.jobs_allocation =
      nm.jobs_allocation.dropWhile (fun p => decide (p.1.release_timestamp = some t)) := by
  obtain ⟨nodes, alloc, src⟩ := nm
  have hsplit := stopGo_split t alloc nodes src
  refine ⟨?_, ?_, ?_⟩
  · intro hne
    cases alloc with
    | nil => simp [stop_processing, stopGo]
    | cons p rest =>
        obtain ⟨j, ids⟩ := p
        have hj : j.release_timestamp ≠ some t := by
          intro h
          exact hne (by simp [next_release_timestamp, h])
        simp [stop_processing, stopGo, hj]
  · exact hsplit.1
  · simpa [stop_processing] using hsplit.2

/-- Witness for C10 at a manager whose single allocation has no release
timestamp (submission unset): every part of the conclusion holds at time 6. -/
theorem stop_processing_frame_witness :
    stop_processing nmNoRelease 6 = ([], nmNoRelease) :=
  (stop_processing_frame_and_pops nmNoRelease 6).1 (by decide)

/-- `QueueManager.add` either admits the job with status 0 or rejects it
with status 1, with the corresponding state update. -/
theorem add_cases (cfg : QueueConfig) (st : QueueState) (job : Job) (now : ℚ) :
    QueueManager.add cfg st job now = (0, process_approved_job cfg st job now) ∨
    QueueManager.add cfg st job now = (1, process_rejected_job st job) := by
  unfold QueueManager.add
  dsimp only
  repeat' split
  all_goals first | (left ; rfl) | (right ; rfl)

/-! ## Claim C7 (confirmed) -/

/-- Claim C7: when an `add` under the Priority discipline admits a job at
time `now`, the new queue holds (up to the insertion position) the freshly
initialized new job together with every previously queued job aged by
exactly `now - latest_queued_timestamp` — the time since the previous
admission, initially 0 — and the latest-admission time becomes `now`. -/
theorem add_priority_aging (cfg : QueueConfig) (st : QueueState) (job : Job)
    (now : ℚ) (hd : cfg.discipline = QueueDiscipline.Priority)
    (hadm : (QueueManager.add cfg st job now).1 = 0) :
    (QueueManager.add cfg st job now).2.latest_queued_timestamp = now ∧
    ((QueueManager.add cfg st job now).2.queue).Perm
      (cfg.job_init job ::
        st.queue.map (fun e => e.increase_priority (now - st.latest_queued_timestamp))) := by
  rcases add_cases cfg st job now with h | h
  · rw [h]
    simp only [process_approved_job, hd]
    refine ⟨trivial, ?_⟩
    simpa using priority_queue_append_perm
      (st.queue.map (fun e => e.increase_priority (now - st.latest_queued_timestamp)))
      (cfg.job_init job)
  · rw [h] at hadm
    simp at hadm

/-- Witness for C7: admitting a job into an unlimited Priority queue holding
one job, with the previous admission at time 2 and the new one at time 5. -/
theorem add_priority_aging_witness :
    (QueueManager.add cfgPriority stPriority jobOneNode 5).2.latest_queued_timestamp = 5 ∧
    ((QueueManager.add cfgPriority stPriority jobOneNode 5).2.queue).Perm
      (cfgPriority.job_init jobOneNode ::
        stPriority.queue.map
          (fun e => e.increase_priority (5 - stPriority.latest_queued_timestamp))) :=
  add_priority_aging cfgPriority stPriority jobOneNode 5 rfl (by decide)

/-! ## Claim C9 (confirmed) -/

/-- Claim C9: a rejected `add` leaves the queue proper untouched — the
queued-job sequence, the per-source counters and the latest-admission
timestamp are unchanged (hence no queued job is aged) — and modifies only
the overflow buffer when one exists, or only the drop counters when not. -/
theorem add_rejected_frame (cfg : QueueConfig) (st : QueueState) (job : Job)
    (now : ℚ) (hrej : (QueueManager.add cfg st job now).1 = 1) :
    (QueueManager.add cfg st job now).2.queue = st.queue ∧
    (QueueManager.add cfg st job now).2.num_jobs_per_source = st.num_jobs_per_source ∧
    (QueueManager.add cfg st job now).2.latest_queued_timestamp =
      st.latest_queued_timestamp ∧
    (st.buffer.isSome → (QueueManager.add cfg st job now).2.num_dropped = st.num_dropped) ∧
    (st.buffer = none → (QueueManager.add cfg st job now).2.buffer = none) := by
  rcases add_cases cfg st job now with h | h
  · rw [h] at hrej
    simp at hrej
  · rw [h]
    unfold process_rejected_job
    cases hb : st.buffer with
    | some b => simp [hb]
    | none =>
        cases hdrop : st.num_dropped with
        | some d => simp [hb, hdrop]
        | none => simp [hb, hdrop]

/-- Witness for C9: rejecting a job on a zero-total-limit queue without a
buffer leaves the queue state unchanged apart from the drop counters. -/
theorem add_rejected_frame_witness :
    (QueueManager.add cfgTotalZero stNoBuffer jobOneNode 5).2.queue = stNoBuffer.queue ∧
    (QueueManager.add cfgTotalZero stNoBuffer jobOneNode 5).2.num_jobs_per_source =
      stNoBuffer.num_jobs_per_source ∧
    (QueueManager.add cfgTotalZero stNoBuffer jobOneNode 5).2.latest_queued_timestamp =
      stNoBuffer.latest_queued_timestamp ∧
    (stNoBuffer.buffer.isSome →
      (QueueManager.add cfgTotalZero stNoBuffer jobOneNode 5).2.num_dropped =
        stNoBuffer.num_dropped) ∧
    (stNoBuffer.buffer = none →
      (QueueManager.add cfgTotalZero stNoBuffer jobOneNode 5).2.buffer = none) :=
  add_rejected_frame cfgTotalZero stNoBuffer jobOneNode 5 (by decide)

/-! ## Claim C1 (corrected) -/

/-- Claim C1, counterexample: two zero-valued optionals break the claimed
case analysis.  First, with `t_a = 0` pending, no release scheduled and no
time limit, the claim demands current time 0 and state Arrival, but the code
tests `not self.__arrival_timestamp`, which is truthy-false at 0, and stops
instead (leaving the current time at its old value 7).  Second, with
`time_limit = 0` set and a pending arrival at time 5, the claim demands the
Stop override (5 exceeds the limit 0), but `if self.__time_limit:` is
truthy-false at 0, so the code keeps the Arrival state. -/
theorem set_next_timestamp_zero_arrival_cex :
    (set_next_timestamp none (some 0) none 7 ServiceState.Arrival =
        (7, ServiceState.Stop) ∧
      set_next_timestamp none (some 0) none 7 ServiceState.Arrival ≠
        (0, ServiceState.Arrival)) ∧
    (set_next_timestamp (some 0) (some 5) none 7 ServiceState.Arrival =
        (5, ServiceState.Arrival) ∧
      set_next_timestamp (some 0) (some 5) none 7 ServiceState.Arrival ≠
        (5, ServiceState.Stop)) := by
  refine ⟨⟨?_, ?_⟩, ?_, ?_⟩
  · decide
  · decide
  · decide
  · decide

/-- Claim C1, amended: for a non-negative arrival timestamp and positive
release timestamps, `set_next_timestamp` follows the spec case analysis of
`choose_next_timestamp` with every zero optional treated as absent by
Python truthiness: `t_a = 0` counts as no pending arrival (so Stop and
Completion absorb an arrival at time 0) and `time_limit = 0` counts as no
time limit (so the Stop override never fires). -/
theorem set_next_timestamp_amended (time_limit t_a t_r : Option ℚ)
    (current_time : ℚ) (state : ServiceState)
    (h_a : ∀ a, t_a = some a → 0 ≤ a) (h_r : ∀ r, t_r = some r → 0 < r) :
    set_next_timestamp time_limit t_a t_r current_time state =
      choose_next_timestamp_spec (if time_limit = some 0 then none else time_limit)
        (if t_a = some 0 then none else t_a) t_r current_time := by
  rcases t_a with _ | a
  · rcases t_r with _ | r
    · rcases time_limit with _ | l <;>
        simp [set_next_timestamp, choose_next_timestamp_spec, pyTruthy, pyGT]
    · have hr : 0 < r := h_r r rfl
      have hrne : r ≠ 0 := ne_of_gt hr
      rcases time_limit with _ | l
      · simp [set_next_timestamp, choose_next_timestamp_spec, pyTruthy, pyGT, hrne,
          not_lt.mpr (le_of_lt hr)]
      · by_cases hl0 : l = 0
        · simp [set_next_timestamp, choose_next_timestamp_spec, pyTruthy, pyGT, hrne,
            hl0]
        · by_cases hlr : l < r
          · simp [set_next_timestamp, choose_next_timestamp_spec, pyTruthy, pyGT, hrne,
              hl0, not_lt.mpr (le_of_lt hr), hlr]
          · simp [set_next_timestamp, choose_next_timestamp_spec, pyTruthy, pyGT, hrne,
              hl0, not_lt.mpr (le_of_lt hr), hlr]
  · have ha : 0 ≤ a := h_a a rfl
    by_cases ha0 : a = 0
    · subst ha0
      rcases t_r with _ | r
      · rcases time_limit with _ | l <;>
          simp [set_next_timestamp, choose_next_timestamp_spec, pyTruthy, pyGT]
      · have hr : 0 < r := h_r r rfl
        have hrne : r ≠ 0 := ne_of_gt hr
        rcases time_limit with _ | l
        · simp [set_next_timestamp, choose_next_timestamp_spec, pyTruthy, pyGT, hrne]
        · by_cases hl0 : l = 0
          · simp [set_next_timestamp, choose_next_timestamp_spec, pyTruthy, pyGT, hrne,
              hl0]
          · by_cases hlr : l < r
            · simp [set_next_timestamp, choose_next_timestamp_spec, pyTruthy, pyGT,
                hrne, hl0, hlr]
            · simp [set_next_timestamp, choose_next_timestamp_spec, pyTruthy, pyGT,
                hrne, hl0, hlr]
    · have hapos : 0 < a := lt_of_le_of_ne ha (Ne.symm ha0)
      rcases t_r with _ | r
      · rcases time_limit with _ | l
        · simp [set_next_timestamp, choose_next_timestamp_spec, pyTruthy, pyGT, ha0]
        · by_cases hl0 : l = 0
          · simp [set_next_timestamp, choose_next_timestamp_spec, pyTruthy, pyGT, ha0,
              hl0]
          · by_cases hla : l < a
            · simp [set_next_timestamp, choose_next_timestamp_spec, pyTruthy, pyGT,
                ha0, hl0, hla]
            · simp [set_next_timestamp, choose_next_timestamp_spec, pyTruthy, pyGT,
                ha0, hl0, hla]
      · have hr : 0 < r := h_r r rfl
        have hrne : r ≠ 0 := ne_of_gt hr
        by_cases hra : r > a
        · rcases time_limit with _ | l
          · simp [set_next_timestamp, choose_next_timestamp_spec, pyTruthy, pyGT, ha0,
              hrne, hra, hapos]
          · by_cases hl0 : l = 0
            · simp [set_next_timestamp, choose_next_timestamp_spec, pyTruthy, pyGT,
                ha0, hrne, hra, hapos, hl0]
            · by_cases hla : l < a
              · simp [set_next_timestamp, choose_next_timestamp_spec, pyTruthy, pyGT,
                  ha0, hrne, hra, hapos, hl0, hla]
              · simp [set_next_timestamp, choose_next_timestamp_spec, pyTruthy, pyGT,
                  ha0, hrne, hra, hapos, hl0, hla]
        · rcases time_limit with _ | l
          · simp [set_next_timestamp, choose_next_timestamp_spec, pyTruthy, pyGT, ha0,
              hrne, hra, hapos]
          · by_cases hl0 : l = 0
            · simp [set_next_timestamp, choose_next_timestamp_spec, pyTruthy, pyGT,
                ha0, hrne, hra, hapos, hl0]
            · by_cases hlr : l < r
              · simp [set_next_timestamp, choose_next_timestamp_spec, pyTruthy, pyGT,
                  ha0, hrne, hra, hapos, hl0, hlr]
              · simp [set_next_timestamp, choose_next_timestamp_spec, pyTruthy, pyGT,
                  ha0, hrne, hra, hapos, hl0, hlr]

/-- Witness for the amended C1: a pending arrival at time 3, a release at
time 2 and time limit 9 give a Completion step at time 2 on both sides. -/
theorem set_next_timestamp_amended_witness :
    set_next_timestamp (some 9) (some 3) (some 2) 7 ServiceState.Arrival =
      choose_next_timestamp_spec
        (if (some 9 : Option ℚ) = some 0 then none else some 9)
        (if (some 3 : Option ℚ) = some 0 then none else some 3) (some 2) 7 :=
  set_next_timestamp_amended (some 9) (some 3) (some 2) 7 ServiceState.Arrival
    (by intro a h; cases h; norm_num) (by intro r h; cases h; norm_num)

end QSim
